import Mathlib

/-!
Shallow embedding of `src/blockchain.py` (the `Blockchain` class and the
`mine` route of the testcoin node) and proofs about the claims of the
specification.

Modelling conventions:
* Python runtime values that can appear in a block (JSON-serialisable data)
  are modelled by `PyVal`; a Python dict standing for a block is a `PyDict`
  (association list with string keys).
* Python exceptions are modelled by `Except PyErr`; `PyErr.typeError`
  stands for `TypeError`, `PyErr.keyError` for `KeyError` raised by
  `d[k]` on a missing key, `PyErr.indexError` for `IndexError` raised by
  `l[-1]` / `l[0]` on an empty list, `PyErr.connectionError` for the
  exceptions `requests.get` can raise (connection refused, timeout), and
  `PyErr.jsonError` for a failing `response.json()` / missing body keys.
* `hashlib.sha256` accepts only bytes-like input; calling it on a `str`
  (as `valid_proof` does, since the source omits `.encode()`) raises
  `TypeError`.  This is modelled by `hashlib_sha256` over `PyObj`.
* `time()` returns a nondeterministic timestamp; it is threaded through as
  an explicit parameter.  The source stores a float; timestamps are
  audit-only (never validated or compared), and they are modelled as
  integer clock readings so that the embedding stays within exact
  arithmetic.
* The unbounded `while` loop of `proof_of_work` is given explicit fuel;
  exhausted fuel is reported as `Option.none` (this branch is unreachable
  in the theorems below because the loop body raises on its first
  iteration).
-/

namespace Testcoin

/-- Python exceptions that the embedded code can raise. -/
inductive PyErr where
  | typeError
  | keyError
  | indexError
  | connectionError
  | jsonError
  deriving DecidableEq, Repr

/-- JSON-serialisable Python values (the values that can appear inside a
block dict): `None`, `int`, `str`, `list`, `dict`. -/
inductive PyVal where
  | none
  | int (n : Int)
  | str (s : String)
  | list (xs : List PyVal)
  | dict (kvs : List (String × PyVal))

/-- A Python dict with string keys, as used for blocks and transactions. -/
abbrev PyDict := List (String × PyVal)

/-- A Python object handed to `hashlib.sha256`: either a bytes object or
some other value (only bytes-like input is accepted by hashlib). -/
inductive PyObj where
  | val (v : PyVal)
  | bytes (bs : List Nat)

mutual

/-- Python `==` as used by the source (`block['previous_hash'] != self.hash(...)`
compares an arbitrary value against a `str`): structural equality, false
across different types, never raising. -/
def pyEq : PyVal → PyVal → Bool
  | PyVal.none, PyVal.none => true
  | PyVal.int a, PyVal.int b => a == b
  | PyVal.str a, PyVal.str b => a == b
  | PyVal.list xs, PyVal.list ys => pyEqList xs ys
  | PyVal.dict xs, PyVal.dict ys => pyEqDict xs ys
  | _, _ => false

/-- Elementwise equality of Python lists. -/
def pyEqList : List PyVal → List PyVal → Bool
  | [], [] => true
  | x :: xs, y :: ys => pyEq x y && pyEqList xs ys
  | _, _ => false

/-- Pairwise equality of dict entries (every dict built by this program has
its keys in a fixed construction order, so entry-wise comparison agrees
with Python's order-insensitive dict equality on the values that occur). -/
def pyEqDict : List (String × PyVal) → List (String × PyVal) → Bool
  | [], [] => true
  | kv :: xs, lw :: ys => kv.1 == lw.1 && pyEq kv.2 lw.2 && pyEqDict xs ys
  | _, _ => false

end

/-- Python truthiness of a value, as used by `previous_hash or self.hash(...)`
and `if new_chain:`. -/
def pyTruthy : PyVal → Bool
  | PyVal.none => false
  | PyVal.int n => !(n == 0)
  | PyVal.str s => !(s == "")
  | PyVal.list xs => !xs.isEmpty
  | PyVal.dict kvs => !kvs.isEmpty

/-- First value stored under key `k`, if any. -/
def lookupKey (d : PyDict) (k : String) : Option PyVal :=
  match d with
  | [] => Option.none
  | kv :: rest => if kv.1 = k then Option.some kv.2 else lookupKey rest k

/-- Python `d[k]` on a dict: the stored value, or `KeyError`. -/
def dictGet (d : PyDict) (k : String) : Except PyErr PyVal :=
  match lookupKey d k with
  | Option.some v => Except.ok v
  | Option.none => Except.error PyErr.keyError

/-- Python `l[-1]`: the last element, or `IndexError` on an empty list. -/
def pyLast {α : Type} (l : List α) : Except PyErr α :=
  match l.getLast? with
  | Option.some x => Except.ok x
  | Option.none => Except.error PyErr.indexError

/-! ### SHA-256 (`hashlib.sha256`)

A byte-level implementation of FIPS 180-4 SHA-256 over `List Nat`
(each entry a byte), with 32-bit words represented as `Nat` reduced
`% 2^32` wherever overflow matters. -/

/-- `2^32`, the word modulus. -/
def M32 : Nat := 4294967296

/-- Right rotation of a 32-bit word. -/
def rotr32 (n x : Nat) : Nat := ((x >>> n) ||| (x <<< (32 - n))) % M32

/-- SHA-256 `Ch(e, f, g)`. -/
def shaCh (e f g : Nat) : Nat := (e &&& f) ^^^ ((e ^^^ 4294967295) &&& g)

/-- SHA-256 `Maj(a, b, c)`. -/
def shaMaj (a b c : Nat) : Nat := (a &&& b) ^^^ (a &&& c) ^^^ (b &&& c)

/-- SHA-256 `Σ0`. -/
def bigSigma0 (x : Nat) : Nat := rotr32 2 x ^^^ rotr32 13 x ^^^ rotr32 22 x

/-- SHA-256 `Σ1`. -/
def bigSigma1 (x : Nat) : Nat := rotr32 6 x ^^^ rotr32 11 x ^^^ rotr32 25 x

/-- SHA-256 `σ0`. -/
def smallSigma0 (x : Nat) : Nat := rotr32 7 x ^^^ rotr32 18 x ^^^ (x >>> 3)

/-- SHA-256 `σ1`. -/
def smallSigma1 (x : Nat) : Nat := rotr32 17 x ^^^ rotr32 19 x ^^^ (x >>> 10)

/-- The 64 SHA-256 round constants of FIPS 180-4, written in decimal. -/
def shaK : List Nat :=
  [1116352408, 1899447441, 3049323471, 3921009573, 961987163, 1508970993,
   2453635748, 2870763221, 3624381080, 310598401, 607225278, 1426881987,
   1925078388, 2162078206, 2614888103, 3248222580, 3835390401, 4022224774,
   264347078, 604807628, 770255983, 1249150122, 1555081692, 1996064986,
   2554220882, 2821834349, 2952996808, 3210313671, 3336571891, 3584528711,
   113926993, 338241895, 666307205, 773529912, 1294757372, 1396182291,
   1695183700, 1986661051, 2177026350, 2456956037, 2730485921, 2820302411,
   3259730800, 3345764771, 3516065817, 3600352804, 4094571909, 275423344,
   430227734, 506948616, 659060556, 883997877, 958139571, 1322822218,
   1537002063, 1747873779, 1955562222, 2024104815, 2227730452, 2361852424,
   2428436474, 2756734187, 3204031479, 3329325298]

/-- The SHA-256 initial hash state of FIPS 180-4, written in decimal. -/
def shaH0 : List Nat :=
  [1779033703, 3144134277, 1013904242, 2773480762,
   1359893119, 2600822924, 528734635, 1541459225]

/-- Group a list of bytes into big-endian 32-bit words. -/
def bytesToWords : List Nat → List Nat
  | b0 :: b1 :: b2 :: b3 :: rest =>
      (((b0 * 256 + b1) * 256 + b2) * 256 + b3) :: bytesToWords rest
  | _ => []

/-- Message-schedule extension: prepend `k` additional words to the
reversed schedule (`wrev.head` is the most recent word). -/
def extendLoop : Nat → List Nat → List Nat
  | 0, wrev => wrev
  | k + 1, wrev =>
      let nw := (smallSigma1 (wrev.getD 1 0) + wrev.getD 6 0 +
                 smallSigma0 (wrev.getD 14 0) + wrev.getD 15 0) % M32
      extendLoop k (nw :: wrev)

/-- The 64-word message schedule of one 64-byte chunk. -/
def scheduleOf (chunk : List Nat) : List Nat :=
  (extendLoop 48 (bytesToWords chunk).reverse).reverse

/-- One round of the SHA-256 compression function on the 8-word state. -/
def compressStep (st : List Nat) (kw : Nat × Nat) : List Nat :=
  match st with
  | [a, b, c, d, e, f, g, h] =>
      let t1 := (h + bigSigma1 e + shaCh e f g + kw.1 + kw.2) % M32
      let t2 := (bigSigma0 a + shaMaj a b c) % M32
      [(t1 + t2) % M32, a, b, c, (d + t1) % M32, e, f, g]
  | _ => st

/-- Compress one 64-byte chunk into the running hash state. -/
def compressChunk (hs : List Nat) (chunk : List Nat) : List Nat :=
  let w := scheduleOf chunk
  let st := (shaK.zip w).foldl compressStep hs
  (hs.zip st).map (fun p => (p.1 + p.2) % M32)

/-- Big-endian byte rendering of `n` in exactly `k` bytes. -/
def toBytesBE : Nat → Nat → List Nat
  | 0, _ => []
  | k + 1, n => toBytesBE k (n / 256) ++ [n % 256]

/-- SHA-256 padding: `0x80`, zero bytes, and the 64-bit bit length. -/
def padMessage (msg : List Nat) : List Nat :=
  let len := msg.length
  let zeros := (119 - len % 64) % 64
  msg ++ [128] ++ List.replicate zeros 0 ++ toBytesBE 8 (len * 8)

/-- Process `k` chunks of 64 bytes. -/
def shaLoop : Nat → List Nat → List Nat → List Nat
  | 0, _, hs => hs
  | k + 1, msg, hs => shaLoop k (msg.drop 64) (compressChunk hs (msg.take 64))

/-- SHA-256 digest (32 bytes) of a byte string. -/
def sha256 (msg : List Nat) : List Nat :=
  let padded := padMessage msg
  ((shaLoop (padded.length / 64) padded shaH0).map (toBytesBE 4)).flatten

/-- A lowercase hexadecimal digit. -/
def hexChar (n : Nat) : Char :=
  if n < 10 then Char.ofNat (48 + n) else Char.ofNat (87 + n)

/-- `.hexdigest()`: lowercase hexadecimal rendering of a digest. -/
def hexdigest (bs : List Nat) : String :=
  String.mk ((bs.map (fun b => [hexChar (b / 16), hexChar (b % 16)])).flatten)

/-- UTF-8 encoding of one character (`str.encode()`). -/
def utf8Char (c : Char) : List Nat :=
  let n := c.toNat
  if n < 128 then [n]
  else if n < 2048 then [192 + n / 64, 128 + n % 64]
  else if n < 65536 then [224 + n / 4096, 128 + n / 64 % 64, 128 + n % 64]
  else [240 + n / 262144, 128 + n / 4096 % 64, 128 + n / 64 % 64, 128 + n % 64]

/-- UTF-8 encoding of a string (`str.encode()`). -/
def utf8 (s : String) : List Nat := (s.data.map utf8Char).flatten

/-- `hashlib.sha256` applied to a Python object: it accepts only bytes-like
input; passing a `str` (or any other object) raises `TypeError`.  The
source's `valid_proof` hits exactly this, because it omits `.encode()`. -/
def hashlib_sha256 (x : PyObj) : Except PyErr (List Nat) :=
  match x with
  | PyObj.bytes bs => Except.ok (sha256 bs)
  | PyObj.val _ => Except.error PyErr.typeError

/-! ### `json.dumps(..., sort_keys=True)` and `str()` formatting -/

/-- The character `"`. -/
def quoteChar : Char := Char.ofNat 34

/-- The character `\`. -/
def backslashChar : Char := Char.ofNat 92

/-- The opening curly bracket as a one-character string. -/
def lbr : String := String.mk [Char.ofNat 123]

/-- The closing curly bracket as a one-character string. -/
def rbr : String := String.mk [Char.ofNat 125]

/-- Four lowercase hex digits of `n % 65536`. -/
def hex4 (n : Nat) : String :=
  String.mk [hexChar (n / 4096 % 16), hexChar (n / 256 % 16), hexChar (n / 16 % 16), hexChar (n % 16)]

/-- A backslash escape of length two. -/
def esc2 (c : Char) : String := String.mk [backslashChar, c]

/-- A `\uXXXX` escape. -/
def escU (n : Nat) : String := esc2 'u' ++ hex4 n

/-- JSON escaping of one character, following `json.dumps` with the default
`ensure_ascii=True` (non-ASCII characters become `\uXXXX` escapes, code
points above the BMP become surrogate pairs). -/
def jsonEscapeChar (c : Char) : String :=
  let n := c.toNat
  if n = 34 then esc2 quoteChar
  else if n = 92 then esc2 backslashChar
  else if n = 8 then esc2 'b'
  else if n = 9 then esc2 't'
  else if n = 10 then esc2 'n'
  else if n = 12 then esc2 'f'
  else if n = 13 then esc2 'r'
  else if n < 32 then escU n
  else if n < 127 then String.mk [c]
  else if n < 65536 then escU n
  else escU (55296 + (n - 65536) / 1024) ++ escU (56320 + (n - 65536) % 1024)

/-- A JSON string literal. -/
def jsonQuote (s : String) : String :=
  String.mk [quoteChar] ++ String.join (s.data.map jsonEscapeChar) ++ String.mk [quoteChar]

/-- Insert a serialised `(key, rendering)` pair keeping keys sorted. -/
def insertPair (p : String × String) : List (String × String) → List (String × String)
  | [] => [p]
  | q :: rest => if p.1 ≤ q.1 then p :: q :: rest else q :: insertPair p rest

/-- Sort serialised pairs by key (the `sort_keys=True` of `json.dumps`). -/
def sortPairs : List (String × String) → List (String × String)
  | [] => []
  | p :: rest => insertPair p (sortPairs rest)

/-- Render sorted members as `"k1": v1, "k2": v2`. -/
def jsonMembers : List (String × String) → String
  | [] => ""
  | [p] => jsonQuote p.1 ++ ": " ++ p.2
  | p :: q :: rest => jsonQuote p.1 ++ ": " ++ p.2 ++ ", " ++ jsonMembers (q :: rest)

mutual

/-- `json.dumps(v, sort_keys=True)` with the default separators.  Each dict
member is serialised first and the members are then sorted by raw key,
which yields the same text as sorting the keys before serialising. -/
def jsonDumps : PyVal → String
  | PyVal.none => "null"
  | PyVal.int n => toString n
  | PyVal.str s => jsonQuote s
  | PyVal.list xs => "[" ++ jsonItems xs ++ "]"
  | PyVal.dict kvs => lbr ++ jsonMembers (sortPairs (jsonPairs kvs)) ++ rbr

/-- Comma-separated renderings of list items. -/
def jsonItems : List PyVal → String
  | [] => ""
  | [x] => jsonDumps x
  | x :: y :: rest => jsonDumps x ++ ", " ++ jsonItems (y :: rest)

/-- Each dict entry paired with the rendering of its value. -/
def jsonPairs : List (String × PyVal) → List (String × String)
  | [] => []
  | kv :: rest => (kv.1, jsonDumps kv.2) :: jsonPairs rest

end

/-- The character `'`. -/
def singleQuote : Char := Char.ofNat 39

mutual

/-- Python `repr` of a value (the containers branch of `str()`): strings are
wrapped in single quotes.  Escape handling inside `repr` of exotic strings is
not reproduced; no theorem below observes such a rendering, because the only
consumer (`valid_proof`) raises before its guess string is ever used. -/
def pyRepr : PyVal → String
  | PyVal.none => "None"
  | PyVal.int n => toString n
  | PyVal.str s => String.mk [singleQuote] ++ s ++ String.mk [singleQuote]
  | PyVal.list xs => "[" ++ pyReprItems xs ++ "]"
  | PyVal.dict kvs => lbr ++ pyReprPairs kvs ++ rbr

/-- Comma-separated `repr`s of list items. -/
def pyReprItems : List PyVal → String
  | [] => ""
  | [x] => pyRepr x
  | x :: y :: rest => pyRepr x ++ ", " ++ pyReprItems (y :: rest)

/-- Comma-separated `repr`s of dict entries. -/
def pyReprPairs : List (String × PyVal) → String
  | [] => ""
  | [kv] => String.mk [singleQuote] ++ kv.1 ++ String.mk [singleQuote] ++ ": " ++ pyRepr kv.2
  | kv :: lw :: rest =>
      String.mk [singleQuote] ++ kv.1 ++ String.mk [singleQuote] ++ ": " ++ pyRepr kv.2 ++ ", " ++
      pyReprPairs (lw :: rest)

end

/-- Python `str(v)`, as used by the f-string `f'{last_proof}{proof}'`:
identity on strings, `repr` otherwise. -/
def pyFormat : PyVal → String
  | PyVal.str s => s
  | v => pyRepr v

/-! ### The `Blockchain` class -/

/-- The mutable state of a `Blockchain` instance: `self.chain`,
`self.current_transactions` and `self.nodes` (the node set is listed in
its iteration order). -/
structure BState where
  chain : List PyDict
  current_transactions : List PyVal
  nodes : List String

/-- `Blockchain.hash(block)`: SHA-256 of the canonical JSON serialisation,
rendered as lowercase hex.  Here `json.dumps(block, sort_keys=True).encode()`
produces bytes, so the `hashlib.sha256` call succeeds and the method is
total. -/
def hash (block : PyDict) : String :=
  hexdigest (sha256 (utf8 (jsonDumps (PyVal.dict block))))

/-- `Blockchain.new_block(proof, previous_hash)`: seals the pending pool
into a new block and appends it.  `previous_hash or self.hash(self.chain[-1])`
uses the supplied value only when it is truthy (an omitted argument is
`PyVal.none`); the fallback raises `IndexError` on an empty chain. -/
def new_block (st : BState) (proof previous_hash : PyVal) (t : Nat) :
    Except PyErr (BState × PyDict) := do
  let ph ←
    if pyTruthy previous_hash then pure previous_hash
    else do
      let lb ← pyLast st.chain
      pure (PyVal.str (hash lb))
  let block : PyDict :=
    [("index", PyVal.int (st.chain.length + 1)),
     ("timestamp", PyVal.int t),
     ("transactions", PyVal.list st.current_transactions),
     ("proof", proof),
     ("previous_hash", ph)]
  pure ({ st with current_transactions := [], chain := st.chain ++ [block] }, block)

/-- `Blockchain.new_transaction(sender, recipient, amount)`: appends the
transaction to the pool and returns `self.last_block['index'] + 1`.  The
source adds `1` to whatever is stored under `'index'`; a non-integer there
would raise `TypeError`.  (In Python the pool append happens before a
possible failure of the index read; every state reachable in the claims has
a non-empty chain with integer indices, so the difference is unobservable
here.) -/
def new_transaction (st : BState) (sender recipient amount : PyVal) :
    Except PyErr (BState × Int) := do
  let tx : PyVal := PyVal.dict [("sender", sender), ("recipient", recipient), ("amount", amount)]
  let st1 := { st with current_transactions := st.current_transactions ++ [tx] }
  let lb ← pyLast st1.chain
  let idx ← dictGet lb "index"
  match idx with
  | PyVal.int n => pure (st1, n + 1)
  | _ => Except.error PyErr.typeError

/-- `Blockchain.valid_proof(last_proof, proof)`: builds the guess string
`f'{last_proof}{proof}'` and hands it — without `.encode()`, exactly as the
source does — to `hashlib.sha256`, then checks the first four hex characters
of the digest against `"0000"`. -/
def valid_proof (last_proof proof : PyVal) : Except PyErr Bool := do
  let guess := pyFormat last_proof ++ pyFormat proof
  let digest ← hashlib_sha256 (PyObj.val (PyVal.str guess))
  pure ((hexdigest digest).take 4 == "0000")

/-- The `while self.valid_proof(last_proof, proof) is False: proof += 1`
loop of `proof_of_work`, with explicit fuel (`Option.none` = fuel ran out
before the loop terminated). -/
def powLoop (last_proof : PyVal) : Nat → Int → Except PyErr (Option Int)
  | 0, _ => Except.ok Option.none
  | fuel + 1, proofCounter => do
      let v ← valid_proof last_proof (PyVal.int proofCounter)
      if v then pure (Option.some proofCounter) else powLoop last_proof fuel (proofCounter + 1)

/-- `Blockchain.proof_of_work(last_proof)`: sequential search upward from 0. -/
def proof_of_work (fuel : Nat) (last_proof : PyVal) : Except PyErr (Option Int) :=
  powLoop last_proof fuel 0

/-- The `while current_index < len(chain)` walk of `valid_chain`, expressed
as recursion over the remaining blocks with the predecessor carried along.
Per iteration the source first reads `block['previous_hash']` and compares
it with `self.hash(last_block)` (returning `False` on mismatch), then reads
the two `'proof'` entries and calls `valid_proof` (returning `False` when
it is falsy).  The `print` statements are side-effect free for the ledger
and are not modelled. -/
def validChainLoop (last_block : PyDict) : List PyDict → Except PyErr Bool
  | [] => Except.ok true
  | block :: rest => do
      let ph ← dictGet block "previous_hash"
      if pyEq ph (PyVal.str (hash last_block)) then do
        let lp ← dictGet last_block "proof"
        let bp ← dictGet block "proof"
        let v ← valid_proof lp bp
        if v then validChainLoop block rest else pure false
      else pure false

/-- `Blockchain.valid_chain(chain)`: `chain[0]` raises `IndexError` on an
empty list; otherwise the pairwise walk above. -/
def valid_chain (chain : List PyDict) : Except PyErr Bool :=
  match chain with
  | [] => Except.error PyErr.indexError
  | b0 :: rest => validChainLoop b0 rest

/-- A successfully decoded `/chain` body: the reported `'length'` value and
the transmitted `'chain'` list of block dicts. -/
structure PeerBody where
  length : Int
  chain : List PyDict

/-- What one `requests.get(f'http://{node}/chain')` can come back with:
either the call raises (connection refused, timeout), or a response with a
status code and a body.  The body is `Except.error` when `response.json()`
fails to parse or the parsed object lacks the `'length'` / `'chain'` keys
(the source reads both through `response.json()`). -/
inductive FetchResult where
  | raised (e : PyErr)
  | response (status : Int) (body : Except PyErr PeerBody)

/-- The `for node in neighbours` loop of `resolve_conflicts`, carrying
`max_length` and `new_chain`.  Per node: a raising fetch propagates (the
source has no try/except); a non-200 status is skipped; on status 200 the
body is read (a malformed body propagates); `length > max_length` is checked
before `self.valid_chain(chain)` (Python `and` short-circuits, and an
exception from `valid_chain` propagates); on success both accumulators are
updated. -/
def resolveLoop (env : String → FetchResult) :
    List String → Int → Option (List PyDict) → Except PyErr (Option (List PyDict))
  | [], _, nc => Except.ok nc
  | node :: rest, maxLen, nc =>
    match env node with
    | FetchResult.raised e => Except.error e
    | FetchResult.response status body =>
      if status = 200 then
        match body with
        | Except.error e => Except.error e
        | Except.ok pb =>
          if pb.length > maxLen then
            match valid_chain pb.chain with
            | Except.error e => Except.error e
            | Except.ok true => resolveLoop env rest pb.length (Option.some pb.chain)
            | Except.ok false => resolveLoop env rest maxLen nc
          else resolveLoop env rest maxLen nc
      else resolveLoop env rest maxLen nc

/-- `Blockchain.resolve_conflicts()`: `max_length` starts at the local
chain's length; after the loop, `if new_chain:` (Python truthiness — `None`
and the empty list are both falsy) decides between replacing `self.chain`
and returning `True`, or leaving the state untouched and returning `False`.
The network is abstracted by `env`, mapping each registered node to the
outcome of its fetch. -/
def resolve_conflicts (st : BState) (env : String → FetchResult) :
    Except PyErr (Bool × BState) := do
  let nc ← resolveLoop env st.nodes (Int.ofNat st.chain.length) Option.none
  match nc with
  | Option.some c =>
    if c.isEmpty then pure (false, st)
    else pure (true, { st with chain := c })
  | Option.none => pure (false, st)

/-- The `/mine` route: reads the last block's proof, runs `proof_of_work`
(fuel-limited here; `Option.none` = search did not finish within fuel),
credits the reward transaction `(sender="0", recipient=node_identifier,
amount=1)` via `new_transaction`, and seals the block with
`new_block(proof)` (no `previous_hash` argument, i.e. `None`). -/
def mine (fuel : Nat) (st : BState) (node_identifier : String) (t : Nat) :
    Except PyErr (Option (BState × PyDict)) := do
  let lastBlock ← pyLast st.chain
  let lastProof ← dictGet lastBlock "proof"
  let p ← proof_of_work fuel lastProof
  match p with
  | Option.none => pure Option.none
  | Option.some proofVal => do
      let r1 ← new_transaction st (PyVal.str "0") (PyVal.str node_identifier) (PyVal.int 1)
      let r2 ← new_block r1.1 (PyVal.int proofVal) PyVal.none t
      pure (Option.some r2)

/-- `Blockchain.__init__`: empty chain, empty pool, empty node set, then
`new_block(previous_hash=1, proof=100)` creates the genesis block (the
sentinel `1` is truthy, so the hash fallback is not taken). -/
def initBlockchain (t : Nat) : Except PyErr BState := do
  let st0 : BState := ⟨[], [], []⟩
  let r ← new_block st0 (PyVal.int 100) (PyVal.int 1) t
  pure r.1

/-! ### Concrete fixtures used by the theorems below -/

/-- The genesis block of a node started at clock reading 0. -/
def gBlock : PyDict :=
  [("index", PyVal.int 1), ("timestamp", PyVal.int 0), ("transactions", PyVal.list []),
   ("proof", PyVal.int 100), ("previous_hash", PyVal.int 1)]

/-- A freshly initialised ledger (no peers registered). -/
def gState : BState := ⟨[gBlock], [], []⟩

/-- A freshly initialised ledger with one registered peer. -/
def gStateP : BState := ⟨[gBlock], [], ["peerA"]⟩

/-- A first block record carrying only a proof entry. -/
def cb0 : PyDict := [("proof", PyVal.int 100)]

/-- A second block record whose `previous_hash` is exactly `hash cb0`, so the
hash-linkage check of `valid_chain` passes and the proof check is reached. -/
def cb1 : PyDict := [("previous_hash", PyVal.str (hash cb0)), ("proof", PyVal.int 35293)]

/-- An environment in which every fetch raises a connection error. -/
def envRaise : String → FetchResult := fun _ => FetchResult.raised PyErr.connectionError

/-- An environment in which every fetch yields a 404 with an unreadable body. -/
def env404 : String → FetchResult := fun _ => FetchResult.response 404 (Except.error PyErr.jsonError)

/-- A single block record violating both the genesis sentinel and the index
numbering, yet accepted by `valid_chain`. -/
def badSolo : PyDict :=
  [("index", PyVal.int 7), ("previous_hash", PyVal.str "junk"), ("proof", PyVal.int 3)]

/-- A block record with no `previous_hash` entry. -/
def noPH : PyDict := [("proof", PyVal.int 3)]

/-- Another block record with no `previous_hash` entry. -/
def noPH2 : PyDict := [("index", PyVal.int 2)]

/-- A well-formed single block transmitted by a lying peer. -/
def soloBlock : PyDict :=
  [("index", PyVal.int 1), ("previous_hash", PyVal.str "s"), ("proof", PyVal.int 9)]

/-- Some second local block (its content is irrelevant to `resolve_conflicts`,
which never validates the local chain). -/
def gBlock2 : PyDict := [("index", PyVal.int 2)]

/-- A local ledger holding two blocks and one registered peer. -/
def st10 : BState := ⟨[gBlock, gBlock2], [], ["peerA"]⟩

/-- The peer reports `length = 5` but transmits a single-block chain. -/
def env10 : String → FetchResult :=
  fun _ => FetchResult.response 200 (Except.ok ⟨5, [soloBlock]⟩)

/-- The peer reports `length = 3` and transmits a single-block chain. -/
def envW : String → FetchResult :=
  fun _ => FetchResult.response 200 (Except.ok ⟨3, [soloBlock]⟩)

/-- The transaction dict built by `new_transaction` from a
`(sender, recipient, amount)` triple. -/
def txDict (tx : PyVal × PyVal × PyVal) : PyVal :=
  PyVal.dict [("sender", tx.1), ("recipient", tx.2.1), ("amount", tx.2.2)]

/-- Submit a list of transactions one after the other (the scenario of the
pool-draining claim). -/
def submitAll : BState → List (PyVal × PyVal × PyVal) → Except PyErr BState
  | st, [] => Except.ok st
  | st, tx :: rest => do
      let r ← new_transaction st tx.1 tx.2.1 tx.2.2
      submitAll r.1 rest

/-- Submit one transaction to a fresh node, then mine (the claim scenario
for pool draining at `N = 1`). -/
def submitThenMine : Except PyErr (Option (BState × PyDict)) := do
  let r ← new_transaction gState (PyVal.str "A") (PyVal.str "B") (PyVal.int 5)
  mine 1 r.1 "abc123" 7

/-- The `previous_hash` entry of the block returned by a `new_block` call. -/
def prevHashOf (r : Except PyErr (BState × PyDict)) : Except PyErr PyVal := do
  let p ← r
  dictGet p.2 "previous_hash"

/-- The `transactions` entry of the block returned by a `new_block` call. -/
def sealedBlockTxs (r : Except PyErr (BState × PyDict)) : Except PyErr (Option PyVal) := do
  let p ← r
  pure (lookupKey p.2 "transactions")

/-- The pending pool left behind by a `new_block` call. -/
def sealedPool (r : Except PyErr (BState × PyDict)) : Except PyErr (List PyVal) := do
  let p ← r
  pure p.1.current_transactions

/-! ### Helper lemmas -/

/-- The guess string of `valid_proof` is a `str`, never bytes, so the
`hashlib.sha256` call raises `TypeError` on every pair of arguments. -/
theorem valid_proof_raises (a b : PyVal) :
    valid_proof a b = Except.error PyErr.typeError := rfl

/-- Binding after a successful `Except` step. -/
theorem ebind_ok {α β : Type} (a : α) (f : α → Except PyErr β) :
    (Except.ok a >>= f) = f a := rfl

/-- Binding after a raising `Except` step. -/
theorem ebind_err {α β : Type} (e : PyErr) (f : α → Except PyErr β) :
    ((Except.error e : Except PyErr α) >>= f) = Except.error e := rfl

/-- The sanity check of the embedding: `__init__` produces exactly the
one-block ledger `gState`. -/
theorem initBlockchain_eq : initBlockchain 0 = Except.ok gState := rfl

/-- `pure` on `Except` is `Except.ok`. -/
theorem epure {α : Type} (a : α) : (pure a : Except PyErr α) = Except.ok a := rfl

/-- The pairwise walk never accepts a non-empty tail: on every block after
the first it either returns `false` at the hash check or reaches
`valid_proof`, which raises. -/
theorem validChainLoop_cons_ne (lb b : PyDict) (rest : List PyDict) :
    validChainLoop lb (b :: rest) ≠ Except.ok true := by
  simp only [validChainLoop]
  cases hph : dictGet b "previous_hash" with
  | error e => simp [hph, ebind_err]
  | ok ph =>
    simp only [hph, ebind_ok]
    by_cases hc : pyEq ph (PyVal.str (hash lb)) = true
    · rw [if_pos hc]
      cases hlp : dictGet lb "proof" with
      | error e => simp [hlp, ebind_err]
      | ok lp =>
        simp only [hlp, ebind_ok]
        cases hbp : dictGet b "proof" with
        | error e => simp [hbp, ebind_err]
        | ok bp => simp [hbp, ebind_ok, valid_proof_raises, ebind_err]
    · rw [if_neg hc]
      exact fun hx => Bool.noConfusion (Except.ok.inj hx)

/-- A submission sequence succeeds from any state whose last block carries
an integer index, leaves the chain and node set untouched, and appends the
corresponding transaction dicts to the pool in order. -/
theorem submitAll_ok (lb : PyDict) (k : Int) :
    ∀ (txs : List (PyVal × PyVal × PyVal)) (st : BState),
      pyLast st.chain = Except.ok lb →
      lookupKey lb "index" = Option.some (PyVal.int k) →
      submitAll st txs =
        Except.ok ⟨st.chain, st.current_transactions ++ txs.map txDict, st.nodes⟩ := by
  intro txs
  induction txs with
  | nil =>
    intro st h1 h2
    simp [submitAll]
  | cons tx rest ih =>
    intro st h1 h2
    have hnt : new_transaction st tx.1 tx.2.1 tx.2.2 =
        Except.ok (⟨st.chain, st.current_transactions ++ [txDict tx], st.nodes⟩, k + 1) := by
      unfold new_transaction
      dsimp only
      rw [h1]
      rw [ebind_ok]
      unfold dictGet
      rw [h2]
      exact rfl
    rw [show submitAll st (tx :: rest) =
        (new_transaction st tx.1 tx.2.1 tx.2.2 >>= fun r => submitAll r.1 rest) from rfl]
    rw [hnt, ebind_ok]
    rw [ih ⟨st.chain, st.current_transactions ++ [txDict tx], st.nodes⟩ h1 h2]
    simp [List.append_assoc]

/-- One loop step when the fetch raises: the exception propagates. -/
theorem resolveLoop_cons_raised {env : String → FetchResult} {n : String} {e : PyErr}
    (rest : List String) (maxLen : Int) (nc : Option (List PyDict))
    (he : env n = FetchResult.raised e) :
    resolveLoop env (n :: rest) maxLen nc = Except.error e := by
  simp [resolveLoop, he]

/-- One loop step on a non-200 status: the peer is skipped. -/
theorem resolveLoop_cons_skip {env : String → FetchResult} {n : String} {s : Int}
    {body : Except PyErr PeerBody} (rest : List String) (maxLen : Int) (nc : Option (List PyDict))
    (he : env n = FetchResult.response s body) (hs : ¬ s = 200) :
    resolveLoop env (n :: rest) maxLen nc = resolveLoop env rest maxLen nc := by
  simp [resolveLoop, he, hs]

/-- One loop step on a 200 response with an unreadable body: the exception
from `response.json()` propagates. -/
theorem resolveLoop_cons_badbody {env : String → FetchResult} {n : String} {e : PyErr}
    (rest : List String) (maxLen : Int) (nc : Option (List PyDict))
    (he : env n = FetchResult.response 200 (Except.error e)) :
    resolveLoop env (n :: rest) maxLen nc = Except.error e := by
  simp [resolveLoop, he]

/-- One loop step when the reported length does not exceed the maximum:
`valid_chain` is not called (Python `and` short-circuits) and the peer is
skipped. -/
theorem resolveLoop_cons_short {env : String → FetchResult} {n : String} {pb : PeerBody}
    (rest : List String) (maxLen : Int) (nc : Option (List PyDict))
    (he : env n = FetchResult.response 200 (Except.ok pb)) (hl : ¬ pb.length > maxLen) :
    resolveLoop env (n :: rest) maxLen nc = resolveLoop env rest maxLen nc := by
  simp [resolveLoop, he, hl]

/-- One loop step when `valid_chain` raises: the exception propagates. -/
theorem resolveLoop_cons_chainerr {env : String → FetchResult} {n : String} {pb : PeerBody}
    {e : PyErr} (rest : List String) (maxLen : Int) (nc : Option (List PyDict))
    (he : env n = FetchResult.response 200 (Except.ok pb)) (hl : pb.length > maxLen)
    (hv : valid_chain pb.chain = Except.error e) :
    resolveLoop env (n :: rest) maxLen nc = Except.error e := by
  simp [resolveLoop, he, hl, hv]

/-- One loop step when the chain is longer but fails validation: skipped. -/
theorem resolveLoop_cons_invalid {env : String → FetchResult} {n : String} {pb : PeerBody}
    (rest : List String) (maxLen : Int) (nc : Option (List PyDict))
    (he : env n = FetchResult.response 200 (Except.ok pb)) (hl : pb.length > maxLen)
    (hv : valid_chain pb.chain = Except.ok false) :
    resolveLoop env (n :: rest) maxLen nc = resolveLoop env rest maxLen nc := by
  simp [resolveLoop, he, hl, hv]

/-- One loop step when the chain is longer and validates: both accumulators
are updated. -/
theorem resolveLoop_cons_adopt {env : String → FetchResult} {n : String} {pb : PeerBody}
    (rest : List String) (maxLen : Int) (nc : Option (List PyDict))
    (he : env n = FetchResult.response 200 (Except.ok pb)) (hl : pb.length > maxLen)
    (hv : valid_chain pb.chain = Except.ok true) :
    resolveLoop env (n :: rest) maxLen nc =
      resolveLoop env rest pb.length (Option.some pb.chain) := by
  simp [resolveLoop, he, hl, hv]

/-- A completed loop either keeps its incoming candidate or ends with the
chain of some consulted peer that reported a strictly larger length and
passed validation. -/
theorem resolveLoop_ok (env : String → FetchResult) :
    ∀ (ns : List String) (maxLen : Int) (nc res : Option (List PyDict)),
      resolveLoop env ns maxLen nc = Except.ok res →
      res = nc ∨ ∃ n, n ∈ ns ∧ ∃ pb : PeerBody,
        env n = FetchResult.response 200 (Except.ok pb) ∧ maxLen < pb.length ∧
        valid_chain pb.chain = Except.ok true ∧ res = Option.some pb.chain := by
  intro ns
  induction ns with
  | nil =>
    intro maxLen nc res h
    left
    have h2 : nc = res := Except.ok.inj h
    exact h2.symm
  | cons n rest ih =>
    intro maxLen nc res h
    cases he : env n with
    | raised e =>
      rw [resolveLoop_cons_raised rest maxLen nc he] at h
      cases h
    | response status body =>
      by_cases hs : status = 200
      · subst hs
        cases body with
        | error e =>
          rw [resolveLoop_cons_badbody rest maxLen nc he] at h
          cases h
        | ok pb =>
          by_cases hl : pb.length > maxLen
          · cases hv : valid_chain pb.chain with
            | error e =>
              rw [resolveLoop_cons_chainerr rest maxLen nc he hl hv] at h
              cases h
            | ok b =>
              cases b with
              | false =>
                rw [resolveLoop_cons_invalid rest maxLen nc he hl hv] at h
                rcases ih maxLen nc res h with h1 | ⟨m, hm, tail⟩
                · left; exact h1
                · right; exact ⟨m, List.mem_cons_of_mem _ hm, tail⟩
              | true =>
                rw [resolveLoop_cons_adopt rest maxLen nc he hl hv] at h
                rcases ih pb.length (Option.some pb.chain) res h with h1 |
                  ⟨m, hm, pb2, he2, hl2, hv2, hres⟩
                · right; exact ⟨n, List.mem_cons_self n rest, pb, he, hl, hv, h1⟩
                · right
                  exact ⟨m, List.mem_cons_of_mem _ hm, pb2, he2, lt_trans hl hl2, hv2, hres⟩
          · rw [resolveLoop_cons_short rest maxLen nc he hl] at h
            rcases ih maxLen nc res h with h1 | ⟨m, hm, tail⟩
            · left; exact h1
            · right; exact ⟨m, List.mem_cons_of_mem _ hm, tail⟩
      · rw [resolveLoop_cons_skip rest maxLen nc he hs] at h
        rcases ih maxLen nc res h with h1 | ⟨m, hm, tail⟩
        · left; exact h1
        · right; exact ⟨m, List.mem_cons_of_mem _ hm, tail⟩

/-! ### Claim theorems -/

/-- Claim C1 (code_bug): `valid_proof` is claimed to return a boolean — true
exactly when the digest of the concatenated decimal forms starts with four
zero hex characters — and never to raise.  The source builds the guess with
`f'{last_proof}{proof}'` but passes the resulting `str` to `hashlib.sha256`
without `.encode()`, so the call raises `TypeError` for every pair of
integers instead of returning anything. -/
theorem valid_proof_raises_typeError_on_ints (lastProof proofArg : Int) :
    valid_proof (PyVal.int lastProof) (PyVal.int proofArg) = Except.error PyErr.typeError :=
  valid_proof_raises _ _

/-- Claim C2 (code_bug): `proof_of_work` is claimed to return the smallest
valid proof.  Its very first loop iteration calls `valid_proof(last_proof, 0)`,
which raises `TypeError` (see C1), so for any positive fuel the search
raises instead of returning an integer. -/
theorem proof_of_work_raises_typeError (fuel : Nat) (lastProof : PyVal) :
    proof_of_work (fuel + 1) lastProof = Except.error PyErr.typeError := rfl

/-- Claim C3 (code_bug): `valid_chain` is claimed to return a boolean verdict
from the pairwise hash and proof checks.  On the two-block chain
`[cb0, cb1]`, whose second record is correctly hash-linked to the first, the
hash check passes and the walk reaches `valid_proof`, which raises
`TypeError` (the `.encode()` slip of C1) instead of producing a verdict. -/
theorem valid_chain_raises_on_hash_linked_chain :
    valid_chain [cb0, cb1] = Except.error PyErr.typeError := rfl

/-- Claim C5 counterexample: with one registered peer whose fetch raises a
connection error, `resolve_conflicts` propagates the exception to the caller
instead of treating the peer as contributing no candidate. -/
theorem resolve_conflicts_propagates_peer_fault :
    resolve_conflicts gStateP envRaise = Except.error PyErr.connectionError := rfl

/-- Claim C6 counterexample: the single-block chain `[badSolo]` — whose
`index` is 7 (invariant 4 requires 1) and whose `previous_hash` is the
string `"junk"` rather than the genesis sentinel `1` (invariant 1) — is
accepted by `valid_chain`. -/
theorem valid_chain_accepts_noncompliant_singleton :
    valid_chain [badSolo] = Except.ok true ∧
    lookupKey badSolo "index" = Option.some (PyVal.int 7) ∧
    lookupKey badSolo "previous_hash" = Option.some (PyVal.str "junk") ∧
    ¬ lookupKey badSolo "index" = Option.some (PyVal.int 1) ∧
    ¬ lookupKey badSolo "previous_hash" = Option.some (PyVal.int 1) := by
  refine ⟨rfl, rfl, rfl, ?_, ?_⟩ <;> · intro h; simp [badSolo, lookupKey] at h

/-- Claim C7 counterexample: submitting one transaction to a fresh node and
then mining raises `TypeError` (inside `proof_of_work`, see C1 and C2), so
no block containing the submitted transaction is sealed. -/
theorem mine_raises_after_submission :
    submitThenMine = Except.error PyErr.typeError := rfl

/-- Claim C8 counterexample: passing the explicit value `0` as
`previous_hash` to `new_block` does not store `0` in the sealed block;
`previous_hash or self.hash(self.chain[-1])` treats the falsy `0` as absent
and stores the hash of the last block instead. -/
theorem new_block_falsy_previous_hash_falls_back :
    prevHashOf (new_block gState (PyVal.int 1) (PyVal.int 0) 5) =
      Except.ok (PyVal.str (hash gBlock)) ∧
    ¬ (PyVal.str (hash gBlock) = PyVal.int 0) := by
  refine ⟨rfl, ?_⟩
  intro h
  cases h

/-- Claim C9 counterexample: on the chain `[gBlock, noPH]`, whose second
record lacks the `previous_hash` field, `valid_chain` raises `KeyError`
instead of returning `false`. -/
theorem valid_chain_raises_keyError_on_malformed :
    valid_chain [gBlock, noPH] = Except.error PyErr.keyError := rfl

/-- Claim C4 (confirmed): in every execution of `resolve_conflicts` that
completes with a verdict (raising executions are the subject of C5), the
local state is returned untouched with `false`, or `true` is returned and
the final chain is the chain of some consulted peer that reported a length
strictly greater than the running maximum — hence strictly greater than the
local chain's length, so an equal-length peer never displaces the local
chain — and whose transmitted chain passed `valid_chain`; a longer chain
that fails validation is never adopted. -/
theorem resolve_conflicts_replaces_only_strictly_longer_valid
    (st : BState) (env : String → FetchResult) (r : Bool) (st' : BState)
    (h : resolve_conflicts st env = Except.ok (r, st')) :
    (r = false → st' = st) ∧
    (r = true → st'.current_transactions = st.current_transactions ∧ st'.nodes = st.nodes ∧
      ∃ n, n ∈ st.nodes ∧ ∃ pb : PeerBody,
        env n = FetchResult.response 200 (Except.ok pb) ∧
        Int.ofNat st.chain.length < pb.length ∧
        valid_chain pb.chain = Except.ok true ∧
        st'.chain = pb.chain) := by
  unfold resolve_conflicts at h
  cases hl : resolveLoop env st.nodes (Int.ofNat st.chain.length) Option.none with
  | error e =>
    rw [hl] at h
    cases h
  | ok nc =>
    rw [hl] at h
    cases nc with
    | none =>
      have h2 : ((false, st) : Bool × BState) = (r, st') := Except.ok.inj h
      have hr : r = false := (congrArg Prod.fst h2).symm
      have hst : st' = st := (congrArg Prod.snd h2).symm
      exact ⟨fun _ => hst, fun htr => absurd (hr ▸ htr) (by simp)⟩
    | some c =>
      rcases resolveLoop_ok env st.nodes _ _ _ hl with h1 | ⟨n, hn, pb, he, hlen, hv, hres⟩
      · exact absurd h1 (by simp)
      · have hc : c = pb.chain := Option.some.inj hres
        have hne : c.isEmpty = false := by
          subst hc
          cases hpc : pb.chain with
          | nil => rw [hpc] at hv; exact absurd hv (by simp [valid_chain])
          | cons x xs => rfl
        have h3 : (if c.isEmpty = true then (pure (false, st) : Except PyErr (Bool × BState))
            else pure (true, { st with chain := c })) = Except.ok (r, st') := h
        rw [if_neg (by simp [hne])] at h3
        have h2 : ((true, { st with chain := c }) : Bool × BState) = (r, st') :=
          Except.ok.inj h3
        have hr : r = true := (congrArg Prod.fst h2).symm
        have hst : st' = { st with chain := c } := (congrArg Prod.snd h2).symm
        subst hst
        refine ⟨fun hf => absurd (hr ▸ hf) (by simp),
          fun _ => ⟨rfl, rfl, n, hn, pb, he, hlen, hv, hc⟩⟩

/-- Claim C4 witness: a concrete completing run — a fresh single-block node
with one peer that reports length 3 and transmits `[soloBlock]` — replaces
the local chain and returns `true`, and the conclusion of the replacement
property holds for it. -/
theorem resolve_conflicts_replaces_only_strictly_longer_valid_witness :
    resolve_conflicts gStateP envW = Except.ok (true, ⟨[soloBlock], [], ["peerA"]⟩) ∧
    ((true = false → (⟨[soloBlock], [], ["peerA"]⟩ : BState) = gStateP) ∧
     (true = true →
       (⟨[soloBlock], [], ["peerA"]⟩ : BState).current_transactions =
           gStateP.current_transactions ∧
       (⟨[soloBlock], [], ["peerA"]⟩ : BState).nodes = gStateP.nodes ∧
       ∃ n, n ∈ gStateP.nodes ∧ ∃ pb : PeerBody,
         envW n = FetchResult.response 200 (Except.ok pb) ∧
         Int.ofNat gStateP.chain.length < pb.length ∧
         valid_chain pb.chain = Except.ok true ∧
         (⟨[soloBlock], [], ["peerA"]⟩ : BState).chain = pb.chain)) :=
  ⟨rfl, resolve_conflicts_replaces_only_strictly_longer_valid gStateP envW true
      ⟨[soloBlock], [], ["peerA"]⟩ rfl⟩

/-- Claim C5 (corrected): the containment the claim asserts holds only for
non-success status codes — such a peer is skipped and the loop goes on over
the remaining peers exactly as if the peer were absent.  A raising fetch
(connection refused, timeout) and an unreadable 200 body both propagate out
of `resolve_conflicts` as exceptions, aborting resolution. -/
theorem resolve_conflicts_fault_behaviour (env : String → FetchResult) (n : String)
    (rest : List String) (st : BState) :
    (∀ e, env n = FetchResult.raised e → st.nodes = n :: rest →
      resolve_conflicts st env = Except.error e) ∧
    (∀ e, env n = FetchResult.response 200 (Except.error e) → st.nodes = n :: rest →
      resolve_conflicts st env = Except.error e) ∧
    (∀ (s : Int) (body : Except PyErr PeerBody), env n = FetchResult.response s body →
      ¬ s = 200 → ∀ (maxLen : Int) (nc : Option (List PyDict)),
      resolveLoop env (n :: rest) maxLen nc = resolveLoop env rest maxLen nc) := by
  refine ⟨?_, ?_, ?_⟩
  · intro e he hn
    unfold resolve_conflicts
    rw [hn, resolveLoop_cons_raised rest _ _ he]
    rfl
  · intro e he hn
    unfold resolve_conflicts
    rw [hn, resolveLoop_cons_badbody rest _ _ he]
    rfl
  · intro s body he hs maxLen nc
    exact resolveLoop_cons_skip rest maxLen nc he hs

/-- Claim C5 witness: a raising peer concretely aborts resolution on a fresh
node, and a 404 peer is concretely skipped by the loop. -/
theorem resolve_conflicts_fault_behaviour_witness :
    resolve_conflicts gStateP envRaise = Except.error PyErr.connectionError ∧
    resolveLoop env404 ["peerA"] 1 Option.none = resolveLoop env404 [] 1 Option.none :=
  ⟨(resolve_conflicts_fault_behaviour envRaise "peerA" [] gStateP).1
      PyErr.connectionError rfl rfl,
   (resolve_conflicts_fault_behaviour env404 "peerA" [] gStateP).2.2
      404 (Except.error PyErr.jsonError) rfl (by decide) 1 Option.none⟩

/-- Claim C10 (confirmed): `resolve_conflicts` compares the peer-reported
`length` field, not the transmitted chain's block count.  The local chain
has two blocks; the peer reports length 5 but transmits a single-block
chain, which `valid_chain` accepts trivially; the local chain is replaced
by the shorter chain and the call reports `replaced = true`. -/
theorem resolve_conflicts_trusts_reported_length :
    resolve_conflicts st10 env10 = Except.ok (true, ⟨[soloBlock], [], ["peerA"]⟩) ∧
    (5 : Int) > Int.ofNat st10.chain.length ∧
    [soloBlock].length < st10.chain.length :=
  ⟨rfl, by decide, by decide⟩

/-- Claim C6 (corrected): `valid_chain` enforces neither invariant 1 (genesis
sentinel) nor invariant 4 (index numbering): it accepts every single-block
chain whatever its `index` and `previous_hash` entries, and — because the
proof check raises on any hash-linked pair (C3) — single-block chains are in
fact the only chains it ever accepts. -/
theorem valid_chain_accepted_iff_singleton :
    (∀ d : PyDict, valid_chain [d] = Except.ok true) ∧
    (∀ c : List PyDict, valid_chain c = Except.ok true → c.length = 1) := by
  constructor
  · intro d
    rfl
  · intro c h
    match c with
    | [] => exact absurd h (by simp [valid_chain])
    | [d] => rfl
    | d1 :: d2 :: rest => exact absurd h (validChainLoop_cons_ne d1 d2 rest)

/-- Claim C6 witness: the invariant-violating `badSolo` chain is concretely
accepted, and the acceptance bound applies to it. -/
theorem valid_chain_accepted_iff_singleton_witness :
    valid_chain [badSolo] = Except.ok true ∧ ([badSolo] : List PyDict).length = 1 :=
  ⟨valid_chain_accepted_iff_singleton.1 badSolo,
   valid_chain_accepted_iff_singleton.2 [badSolo] (valid_chain_accepted_iff_singleton.1 badSolo)⟩

/-- Claim C7 (corrected): pool draining is exact for `new_block`: submitting
N transactions from an empty pool and sealing one block via `new_block`
yields a block whose `transactions` entry is exactly the N submitted
transaction dicts in submission order, and leaves the pool empty.  (The
`mine` route would additionally append one reward transaction before
sealing, but it always raises `TypeError` inside `proof_of_work` before
sealing anything — see the counterexample.) -/
theorem new_block_drains_pool_exactly (st : BState) (txs : List (PyVal × PyVal × PyVal))
    (pf ph : PyVal) (t : Nat) (lb : PyDict) (k : Int)
    (h0 : st.current_transactions = [])
    (h1 : pyLast st.chain = Except.ok lb)
    (h2 : lookupKey lb "index" = Option.some (PyVal.int k)) :
    ∃ st1, submitAll st txs = Except.ok st1 ∧
      sealedBlockTxs (new_block st1 pf ph t) =
        Except.ok (Option.some (PyVal.list (txs.map txDict))) ∧
      sealedPool (new_block st1 pf ph t) = Except.ok [] := by
  refine ⟨⟨st.chain, txs.map txDict, st.nodes⟩, ?_, ?_, ?_⟩
  · rw [submitAll_ok lb k txs st h1 h2, h0]
    simp
  · cases htr : pyTruthy ph with
    | true => simp [new_block, sealedBlockTxs, htr, lookupKey, epure, ebind_ok]
    | false => simp [new_block, sealedBlockTxs, htr, h1, lookupKey, epure, ebind_ok]
  · cases htr : pyTruthy ph with
    | true => simp [new_block, sealedPool, htr, epure, ebind_ok]
    | false => simp [new_block, sealedPool, htr, h1, epure, ebind_ok]

/-- Claim C7 witness: one concrete transaction submitted to a fresh node and
sealed with `new_block` lands alone in the block, leaving the pool empty. -/
theorem new_block_drains_pool_exactly_witness :
    ∃ st1, submitAll gState [(PyVal.str "A", PyVal.str "B", PyVal.int 5)] = Except.ok st1 ∧
      sealedBlockTxs (new_block st1 (PyVal.int 1) (PyVal.int 7) 9) =
        Except.ok (Option.some (PyVal.list
          ([(PyVal.str "A", PyVal.str "B", PyVal.int 5)].map txDict))) ∧
      sealedPool (new_block st1 (PyVal.int 1) (PyVal.int 7) 9) = Except.ok [] :=
  new_block_drains_pool_exactly gState [(PyVal.str "A", PyVal.str "B", PyVal.int 5)]
    (PyVal.int 1) (PyVal.int 7) 9 gBlock 1 rfl rfl rfl

/-- Claim C8 (corrected): the sealed block's `previous_hash` equals the
supplied argument exactly when that argument is truthy; for a falsy supplied
value (`0`, the empty string, or the omitted `None`) the fallback
`self.hash(self.chain[-1])` is stored instead. -/
theorem new_block_previous_hash_truthiness (st : BState) (pf ph : PyVal) (t : Nat)
    (lb : PyDict) :
    (pyTruthy ph = true → prevHashOf (new_block st pf ph t) = Except.ok ph) ∧
    (pyTruthy ph = false → pyLast st.chain = Except.ok lb →
      prevHashOf (new_block st pf ph t) = Except.ok (PyVal.str (hash lb))) := by
  constructor
  · intro htr
    simp [new_block, prevHashOf, dictGet, htr, lookupKey, epure, ebind_ok]
  · intro hf hl
    simp [new_block, prevHashOf, dictGet, hf, hl, lookupKey, epure, ebind_ok]

/-- Claim C8 witness: a truthy supplied `previous_hash` (`7`) is stored
verbatim; the falsy `0` concretely yields the hash of the last block. -/
theorem new_block_previous_hash_truthiness_witness :
    prevHashOf (new_block gState (PyVal.int 3) (PyVal.int 7) 5) = Except.ok (PyVal.int 7) ∧
    prevHashOf (new_block gState (PyVal.int 3) (PyVal.int 0) 5) =
      Except.ok (PyVal.str (hash gBlock)) :=
  ⟨(new_block_previous_hash_truthiness gState (PyVal.int 3) (PyVal.int 7) 5 gBlock).1 rfl,
   (new_block_previous_hash_truthiness gState (PyVal.int 3) (PyVal.int 0) 5 gBlock).2 rfl rfl⟩

/-- Claim C9 (corrected): `valid_chain` cannot mutate ledger state (the
method reads no instance fields; its embedding is a pure function of the
candidate chain), but it does not reject malformed records gracefully: a
second record with no `previous_hash` entry raises `KeyError` instead of
returning `false`. -/
theorem valid_chain_keyError_missing_previous_hash (lb d : PyDict) (rest : List PyDict)
    (h : lookupKey d "previous_hash" = Option.none) :
    valid_chain (lb :: d :: rest) = Except.error PyErr.keyError := by
  show validChainLoop lb (d :: rest) = Except.error PyErr.keyError
  simp [validChainLoop, dictGet, h, ebind_err]

/-- Claim C9 witness: a concrete chain of two records, the second lacking
`previous_hash`, raises `KeyError`. -/
theorem valid_chain_keyError_missing_previous_hash_witness :
    valid_chain [noPH, noPH2] = Except.error PyErr.keyError :=
  valid_chain_keyError_missing_previous_hash noPH noPH2 [] rfl

end Testcoin
